import Mathlib

/-!
Verification of the squiflog SYSLOG → CLEF transcoder.

This file shallowly embeds the data model and the CLEF mapper of
`src/squiflog/src/data/mod.rs` and `src/squiflog/src/data/clef.rs`
and proves properties of the mapper `into_clef`.

Modelling decisions:
* `serde_json::Value` is modelled by the inductive `Json` (only the
  constructors the mapper can produce, plus `null` for serde's rendering
  of a `None` option without `skip_serializing_if`).
* Rust's `HashMap<&str, Value>` is modelled by an association list with
  unique keys (`JMap`); `JMap.insert` overwrites an existing binding,
  exactly like `HashMap::insert`.
* `DateTime<Utc>` is modelled abstractly as a `Nat`; the wall-clock time
  taken by `Utc::now()` inside `into_clef` is made an explicit parameter
  `now` of the embedded function.
* Borrowed string slices (`&'a str`, `Cow<'a, str>`) are modelled as
  `String` (the spec notes zero-copy is an optimization, not behaviour).
-/

/-- Model of `serde_json::Value` restricted to the shapes the mapper emits. -/
inductive Json where
  | null : Json
  | str : String → Json
  | arr : List Json → Json
  | obj : List (String × Json) → Json

/-- Model of `HashMap<&str, Value>`: an association list whose keys are
kept unique by `JMap.insert`. -/
abbrev JMap := List (String × Json)

/-- `HashMap::insert`: any existing binding of `k` is removed, then the new
binding is added. -/
def JMap.insert (m : JMap) (k : String) (v : Json) : JMap :=
  (List.filter (fun p => p.1 != k) m) ++ [(k, v)]

/-- `HashMap::get`: the value bound to `k`, if any. -/
def JMap.lookup (m : JMap) (k : String) : Option Json :=
  match m with
  | [] => none
  | (k', v) :: rest => if k' = k then some v else JMap.lookup rest k

/-- The set of keys of the map, as a list. -/
def JMap.keys (m : JMap) : List String :=
  m.map Prod.fst

/-- `syslog::Priority`: the parsed `<N>` priority code, split into its
facility and severity numbers (from `src/data/syslog.rs`, whose struct
shape is fixed by the tests in `src/data/mod.rs`). -/
structure Priority where
  facility : Nat
  severity : Nat

/-- Modelled from the spec: the syslog module's static facility-name
table is not under `src/`; the spec fixes `facility = priority / 8`
(0–23), names such as kernel, mail, daemon (= 3, per the reference
scenario), local0–local7, all lowercase. -/
def facilityNames : List String :=
  ["kernel", "user", "mail", "daemon", "auth", "syslog", "lpr", "news",
   "uucp", "cron", "authpriv", "ftp", "ntp", "audit", "alert", "clock",
   "local0", "local1", "local2", "local3", "local4", "local5", "local6",
   "local7"]

/-- Modelled from the spec: the syslog module's static severity-name
table is not under `src/`; the spec fixes `severity = priority % 8`
(0–7), the fixed enumeration emergency…debug, all lowercase
(severity 6 = "info" per the reference scenario). -/
def severityNames : List String :=
  ["emergency", "alert", "critical", "error", "warning", "notice",
   "info", "debug"]

/-- Modelled from the spec: `Priority::facility()` — the facility's
canonical lowercase name via the static lookup table. -/
def Priority.facilityName (p : Priority) : String :=
  facilityNames.getD p.facility ""

/-- Modelled from the spec: `Priority::severity()` — the severity's
canonical lowercase name via the static lookup table. -/
def Priority.severityName (p : Priority) : String :=
  severityNames.getD p.severity ""

/-- `syslog::StructuredDataElement`: an id plus an ordered list of
(key, value) parameter pairs (duplicate keys allowed). -/
structure StructuredDataElement where
  id : String
  params : List (String × String)

/-- `syslog::Message`: the parsed SYSLOG record. -/
structure SyslogMessage where
  priority : Priority
  timestamp : Option Nat
  hostname : Option String
  app_name : Option String
  proc_id : Option String
  message_id : Option String
  structured_data : Option (List StructuredDataElement)
  message : Option String

/-- `clef::Message` from `src/data/clef.rs`. -/
structure ClefMessage where
  timestamp : Nat
  level : Option String
  message : Option String
  message_template : Option String
  exception : Option String
  additional : JMap

/-- The inner loop of `into_clef` over one element's params:
for each `(k, v)` a fresh single-entry `HashMap` is built and pushed. -/
def renderParams (params : List (String × String)) : List Json :=
  params.foldl
    (fun acc kv => acc ++ [Json.obj (JMap.insert [] kv.1 (Json.str kv.2))])
    []

/-- The JSON value `into_clef` builds for one structured-data element:
`json!(params)`, the rendered parameter list. -/
def sdElementValue (element : StructuredDataElement) : Json :=
  Json.arr (renderParams element.params)

/-- The header phase of `into_clef` (`src/data/mod.rs` lines 97–111):
`facility` is always inserted; each present optional header field is
inserted under its name; absent fields insert nothing. -/
def headerMap (msg : SyslogMessage) : JMap :=
  let additional : JMap := []
  let additional := additional.insert "facility" (Json.str msg.priority.facilityName)
  let additional :=
    match msg.hostname with
    | some hostname => additional.insert "hostname" (Json.str hostname)
    | none => additional
  let additional :=
    match msg.app_name with
    | some app_name => additional.insert "app_name" (Json.str app_name)
    | none => additional
  let additional :=
    match msg.proc_id with
    | some proc_id => additional.insert "proc_id" (Json.str proc_id)
    | none => additional
  let additional :=
    match msg.message_id with
    | some message_id => additional.insert "message_id" (Json.str message_id)
    | none => additional
  additional

/-- The structured-data phase of `into_clef` (`src/data/mod.rs` lines
113–123): for each element in order, `additional.insert(element.id,
json!(params))`. -/
def sdFold (m0 : JMap) (sd : List StructuredDataElement) : JMap :=
  sd.foldl (fun acc element => acc.insert element.id (sdElementValue element)) m0

/-- `syslog::Message::into_clef` (`src/data/mod.rs` lines 83–133).
`now` stands for the `Utc::now()` wall-clock call. -/
def into_clef (now : Nat) (msg : SyslogMessage) : ClefMessage :=
  let additional := headerMap msg
  let additional :=
    match msg.structured_data with
    | some sd => sdFold additional sd
    | none => additional
  { timestamp := msg.timestamp.getD now
    level := some msg.priority.severityName
    message := msg.message
    message_template := none
    exception := none
    additional := additional }

/-- The serde rendering of `clef::Message` (`src/data/clef.rs`): `@t` and
`@l` are always emitted (`@l` has no `skip_serializing_if`, so a `None`
level would serialize as `null`); `@m`, `@mt`, `@x` are skipped when
`None`; `additional` is flattened into the same object. -/
def serializeClef (c : ClefMessage) : List (String × Json) :=
  [("@t", Json.str (toString c.timestamp)),
   ("@l", match c.level with | some l => Json.str l | none => Json.null)]
  ++ (match c.message with | some m => [("@m", Json.str m)] | none => [])
  ++ (match c.message_template with | some t => [("@mt", Json.str t)] | none => [])
  ++ (match c.exception with | some e => [("@x", Json.str e)] | none => [])
  ++ c.additional

/-- The keys of the serialized CLEF document, in emission order. -/
def serializedKeys (c : ClefMessage) : List String :=
  (serializeClef c).map Prod.fst

/-- Well-formedness of a CLEF event, as produced by this pipeline: a level
is present, the reserved `@mt`/`@x` slots are unused, the `facility` field
is present in the additional bag, and the bag's keys are duplicate-free
(it models a `HashMap`). -/
def wellFormedClef (c : ClefMessage) : Prop :=
  c.level.isSome = true ∧
  c.message_template = none ∧
  c.exception = none ∧
  (JMap.lookup c.additional "facility").isSome = true ∧
  (JMap.keys c.additional).Nodup

/-- The CLEF-reserved keys (glossary of the spec; `clef.rs` comments). -/
def reservedKeys : List String :=
  ["@t", "@l", "@m", "@mt", "@x", "@i", "@r"]

/-- Header-field selector by lowercase name, for stating claims uniformly
over the four optional header fields. -/
def headerField (msg : SyslogMessage) (name : String) : Option String :=
  if name = "hostname" then msg.hostname
  else if name = "app_name" then msg.app_name
  else if name = "proc_id" then msg.proc_id
  else if name = "message_id" then msg.message_id
  else none

/-- The last element of `sd` whose id is `k`, if any: the binding that an
insert-in-order fold leaves in the map. -/
def lastElemWith (sd : List StructuredDataElement) (k : String) :
    Option StructuredDataElement :=
  match sd with
  | [] => none
  | e :: rest =>
    match lastElemWith rest k with
    | some e' => some e'
    | none => if e.id = k then some e else none

/-! ### Concrete sample messages used to instantiate the theorems -/

/-- A message whose structured-data element id collides with a present
`hostname` header. -/
def msgHeaderSdClash : SyslogMessage :=
  { priority := ⟨3, 6⟩
    timestamp := some 0
    hostname := some "docker-desktop"
    app_name := none
    proc_id := none
    message_id := none
    structured_data := some [⟨"hostname", [("a", "b")]⟩]
    message := none }

/-- A message whose free-text body is a JSON object (`{"a": 1}`). -/
def msgJsonBody : SyslogMessage :=
  { priority := ⟨3, 6⟩
    timestamp := some 0
    hostname := none
    app_name := none
    proc_id := none
    message_id := none
    structured_data := none
    message := some "\x7b\"a\": 1\x7d" }

/-- A message with a structured-data element whose id is the reserved
key `@t`. -/
def msgReservedSd : SyslogMessage :=
  { priority := ⟨3, 6⟩
    timestamp := some 0
    hostname := none
    app_name := none
    proc_id := none
    message_id := none
    structured_data := some [⟨"@t", []⟩]
    message := none }

/-- A message whose structured-data ids avoid every reserved key. -/
def msgSafeSd : SyslogMessage :=
  { priority := ⟨3, 6⟩
    timestamp := some 0
    hostname := some "docker-desktop"
    app_name := none
    proc_id := none
    message_id := none
    structured_data := some [⟨"sdid1234", [("k", "v")]⟩]
    message := some "hello world" }

/-- A message with duplicate parameter keys inside one structured-data
element (scenario C of the spec). -/
def msgDupParams : SyslogMessage :=
  { priority := ⟨3, 6⟩
    timestamp := some 0
    hostname := none
    app_name := none
    proc_id := none
    message_id := none
    structured_data := some [⟨"sdid1234", [("ip", "192.0.2.1"), ("ip", "192.0.2.129")]⟩]
    message := none }

/-- A sparse message: no structured data and no body. -/
def msgSparse : SyslogMessage :=
  { priority := ⟨3, 6⟩
    timestamp := some 0
    hostname := some "docker-desktop"
    app_name := none
    proc_id := none
    message_id := none
    structured_data := none
    message := none }

/-- A message with no hostname header but other material present. -/
def msgNoHost : SyslogMessage :=
  { priority := ⟨3, 6⟩
    timestamp := none
    hostname := none
    app_name := some "8b1089798cf8"
    proc_id := none
    message_id := none
    structured_data := some [⟨"sdid1234", [("k", "v")]⟩]
    message := some "hello world" }

/-- A message with two structured-data elements sharing one id. -/
def msgDupIds : SyslogMessage :=
  { priority := ⟨3, 6⟩
    timestamp := some 0
    hostname := none
    app_name := none
    proc_id := none
    message_id := none
    structured_data := some [⟨"dup", [("a", "1")]⟩, ⟨"dup", [("b", "2")]⟩]
    message := none }

/-! ### Association-map lemmas -/

theorem JMap.lookup_append (l1 l2 : JMap) (k : String) :
    JMap.lookup (l1 ++ l2) k =
      match JMap.lookup l1 k with
      | some v => some v
      | none => JMap.lookup l2 k := by
  induction l1 with
  | nil => rfl
  | cons p rest ih =>
    obtain ⟨k', v⟩ := p
    by_cases h : k' = k <;> simp [JMap.lookup, h, ih]

theorem JMap.lookup_filter_self (m : JMap) (k : String) :
    JMap.lookup (List.filter (fun p => p.1 != k) m) k = none := by
  induction m with
  | nil => rfl
  | cons p rest ih =>
    obtain ⟨k', v⟩ := p
    by_cases h : k' = k
    · simp [List.filter_cons, h, ih]
    · simp [List.filter_cons, h, JMap.lookup, ih]

theorem JMap.lookup_filter_ne (m : JMap) (k k' : String) (h : k' ≠ k) :
    JMap.lookup (List.filter (fun p => p.1 != k) m) k' = JMap.lookup m k' := by
  induction m with
  | nil => rfl
  | cons p rest ih =>
    obtain ⟨k'', v⟩ := p
    by_cases h2 : k'' = k
    · subst h2
      simp [List.filter_cons, JMap.lookup, Ne.symm h, ih]
    · by_cases h3 : k'' = k' <;>
        simp [List.filter_cons, JMap.lookup, h, h2, h3, ih]

theorem JMap.lookup_insert (m : JMap) (k : String) (v : Json) :
    JMap.lookup (m.insert k v) k = some v := by
  rw [JMap.insert, JMap.lookup_append, JMap.lookup_filter_self]
  simp [JMap.lookup]

theorem JMap.lookup_insert_ne (m : JMap) (k k' : String) (v : Json)
    (h : k' ≠ k) :
    JMap.lookup (m.insert k v) k' = JMap.lookup m k' := by
  rw [JMap.insert, JMap.lookup_append, JMap.lookup_filter_ne m k k' h]
  cases JMap.lookup m k' with
  | none => simp [JMap.lookup, Ne.symm h]
  | some w => rfl

theorem JMap.mem_keys_insert (m : JMap) (k k' : String) (v : Json) :
    k' ∈ JMap.keys (m.insert k v) ↔ k' = k ∨ k' ∈ JMap.keys m := by
  simp only [JMap.insert, JMap.keys, List.map_append, List.mem_append,
    List.mem_map, List.mem_filter]
  constructor
  · rintro (⟨p, ⟨hp, hne⟩, hfst⟩ | h)
    · exact Or.inr ⟨p, hp, hfst⟩
    · simp at h
      exact Or.inl h.symm
  · rintro (h | ⟨p, hp, hfst⟩)
    · simp [h]
    · by_cases he : p.1 = k
      · refine Or.inr ?_
        simp [← hfst, he]
      · exact Or.inl ⟨p, ⟨hp, by simp [he]⟩, hfst⟩

theorem JMap.mem_keys_iff_lookup (m : JMap) (k : String) :
    k ∈ JMap.keys m ↔ (JMap.lookup m k).isSome := by
  induction m with
  | nil => simp [JMap.keys, JMap.lookup]
  | cons p rest ih =>
    obtain ⟨k', v⟩ := p
    by_cases h : k' = k
    · simp [JMap.keys, JMap.lookup, h]
    · simp only [JMap.keys, List.map_cons, List.mem_cons, JMap.lookup,
        if_neg h]
      constructor
      · rintro (hk | hk)
        · exact absurd hk.symm h
        · exact (ih).mp hk
      · intro hk
        exact Or.inr ((ih).mpr hk)

theorem JMap.keys_nodup_insert (m : JMap) (k : String) (v : Json)
    (h : (JMap.keys m).Nodup) : (JMap.keys (m.insert k v)).Nodup := by
  simp only [JMap.insert, JMap.keys, List.map_append]
  apply List.Nodup.append
  · exact ((List.filter_sublist m).map Prod.fst).nodup h
  · simp
  · intro a ha hb
    simp at hb
    subst hb
    simp only [List.mem_map, List.mem_filter] at ha
    obtain ⟨p, ⟨_, hne⟩, hfst⟩ := ha
    simp [hfst] at hne

/-! ### Structured-data fold lemmas -/

theorem lookup_sdFold (sd : List StructuredDataElement) (m0 : JMap)
    (k : String) :
    JMap.lookup (sdFold m0 sd) k =
      match lastElemWith sd k with
      | some e => some (sdElementValue e)
      | none => JMap.lookup m0 k := by
  induction sd generalizing m0 with
  | nil => rfl
  | cons e rest ih =>
    rw [show sdFold m0 (e :: rest) =
          sdFold (m0.insert e.id (sdElementValue e)) rest from rfl, ih]
    cases hrest : lastElemWith rest k with
    | some e' => simp [lastElemWith, hrest]
    | none =>
      by_cases hid : e.id = k
      · subst hid
        simp [lastElemWith, hrest, JMap.lookup_insert]
      · simp [lastElemWith, hrest, hid,
          JMap.lookup_insert_ne m0 e.id k _ (Ne.symm hid)]

theorem mem_keys_sdFold (sd : List StructuredDataElement) (m0 : JMap)
    (k : String) :
    k ∈ JMap.keys (sdFold m0 sd) ↔
      k ∈ JMap.keys m0 ∨ k ∈ sd.map StructuredDataElement.id := by
  induction sd generalizing m0 with
  | nil => simp [sdFold]
  | cons e rest ih =>
    rw [show sdFold m0 (e :: rest) =
          sdFold (m0.insert e.id (sdElementValue e)) rest from rfl]
    rw [ih, JMap.mem_keys_insert]
    simp only [List.map_cons, List.mem_cons]
    tauto

theorem keys_nodup_sdFold (sd : List StructuredDataElement) (m0 : JMap)
    (h : (JMap.keys m0).Nodup) : (JMap.keys (sdFold m0 sd)).Nodup := by
  induction sd generalizing m0 with
  | nil => exact h
  | cons e rest ih =>
    exact ih _ (JMap.keys_nodup_insert m0 e.id _ h)

/-- The inner loop builds exactly one single-entry object per (key, value)
pair, in encounter order. -/
theorem renderParams_eq (params : List (String × String)) :
    renderParams params =
      params.map (fun kv => Json.obj [(kv.1, Json.str kv.2)]) := by
  have step : ∀ (ps : List (String × String)) (acc : List Json),
      ps.foldl
        (fun acc kv => acc ++ [Json.obj (JMap.insert [] kv.1 (Json.str kv.2))])
        acc =
      acc ++ ps.map (fun kv => Json.obj [(kv.1, Json.str kv.2)]) := by
    intro ps
    induction ps with
    | nil => simp
    | cons kv rest ih =>
      intro acc
      rw [List.foldl_cons, ih, List.map_cons]
      simp [JMap.insert, List.filter]
  rw [renderParams, step]
  simp

/-! ### Mapper-level helper lemmas -/

theorem additional_into_clef (now : Nat) (msg : SyslogMessage) :
    (into_clef now msg).additional =
      match msg.structured_data with
      | some sd => sdFold (headerMap msg) sd
      | none => headerMap msg := rfl

theorem mem_keys_additional (now : Nat) (msg : SyslogMessage) (k : String) :
    k ∈ JMap.keys (into_clef now msg).additional ↔
      (k ∈ JMap.keys (headerMap msg) ∨
       k ∈ (msg.structured_data.getD []).map StructuredDataElement.id) := by
  rw [additional_into_clef]
  cases h : msg.structured_data with
  | none => simp
  | some sd => simp [mem_keys_sdFold]

theorem lookup_additional_into_clef (now : Nat) (msg : SyslogMessage)
    (k : String) :
    JMap.lookup (into_clef now msg).additional k =
      match lastElemWith (msg.structured_data.getD []) k with
      | some e => some (sdElementValue e)
      | none => JMap.lookup (headerMap msg) k := by
  rw [additional_into_clef]
  cases h : msg.structured_data with
  | none => simp [lastElemWith]
  | some sd => simp [lookup_sdFold]

/-! ### Header-map lemmas -/

theorem mem_keys_headerMap (msg : SyslogMessage) (k : String) :
    k ∈ JMap.keys (headerMap msg) ↔
      (k = "facility" ∨
       (k = "hostname" ∧ msg.hostname.isSome) ∨
       (k = "app_name" ∧ msg.app_name.isSome) ∨
       (k = "proc_id" ∧ msg.proc_id.isSome) ∨
       (k = "message_id" ∧ msg.message_id.isSome)) := by
  simp only [headerMap]
  cases msg.hostname <;> cases msg.app_name <;> cases msg.proc_id <;>
    cases msg.message_id <;>
    simp only [JMap.mem_keys_insert, Option.isSome_some, Option.isSome_none,
      and_true, and_false, or_false,
      show JMap.keys [] = [] from rfl, List.not_mem_nil] <;>
    tauto

theorem keys_nodup_headerMap (msg : SyslogMessage) :
    (JMap.keys (headerMap msg)).Nodup := by
  simp only [headerMap]
  cases msg.hostname <;> cases msg.app_name <;> cases msg.proc_id <;>
    cases msg.message_id <;>
    (repeat' apply JMap.keys_nodup_insert) <;>
    simp [JMap.keys]

theorem lookup_headerMap_facility (msg : SyslogMessage) :
    JMap.lookup (headerMap msg) "facility" =
      some (Json.str msg.priority.facilityName) := by
  rw [headerMap]
  cases msg.hostname <;> cases msg.app_name <;> cases msg.proc_id <;>
    cases msg.message_id <;>
    simp [JMap.lookup_insert, JMap.lookup_insert_ne, JMap.lookup,
      JMap.insert, List.filter]

/-- Every severity name the table can produce (including the out-of-range
default `""`) contains no uppercase character. -/
theorem severityName_no_upper (p : Priority) :
    (p.severityName.data.all fun c => !c.isUpper) = true := by
  have hmem : p.severityName ∈ ("" :: severityNames) := by
    rw [Priority.severityName]
    by_cases h : p.severity < severityNames.length
    · rw [List.getD_eq_getElem _ _ h]
      exact List.mem_cons_of_mem _ (List.getElem_mem h)
    · rw [List.getD_eq_default _ _ (Nat.le_of_not_lt h)]
      exact List.mem_cons_self _ _
  have hall : ∀ s ∈ ("" :: severityNames),
      (s.data.all fun c => !c.isUpper) = true := by decide
  exact hall _ hmem

theorem keys_nodup_into_clef (now : Nat) (msg : SyslogMessage) :
    (JMap.keys (into_clef now msg).additional).Nodup := by
  rw [additional_into_clef]
  cases msg.structured_data with
  | none => exact keys_nodup_headerMap msg
  | some sd => exact keys_nodup_sdFold sd _ (keys_nodup_headerMap msg)



/-! ### Claim theorems -/

/-- C1: the spec claims that a structured-data element whose id equals a
present header field leaves the header value under the plain key and the
element value under "__"-prefixed key. The code instead overwrites the
header value by a plain `HashMap::insert` and never writes a
double-underscore key, contradicting `into_clef`'s own doc comment. At
the concrete colliding input the plain key holds the structured-data
value and no `__hostname` key exists. -/
theorem sd_overwrites_header_no_prefixing :
    msgHeaderSdClash.hostname = some "docker-desktop" ∧
    JMap.lookup (into_clef 0 msgHeaderSdClash).additional "hostname" =
      some (Json.arr [Json.obj [("a", Json.str "b")]]) ∧
    JMap.lookup (into_clef 0 msgHeaderSdClash).additional "__hostname" = none :=
  ⟨rfl, rfl, rfl⟩

/-- C2: the spec claims a JSON-object body is extracted into additional
fields and then not emitted as `@m`. The code performs no embedded-JSON
detection: the body is passed through verbatim to the `@m` slot and none
of its keys reach the additional bag, contradicting `into_clef`'s own doc
comment. Shown at a concrete JSON-object body. -/
theorem json_body_kept_opaque :
    (into_clef 0 msgJsonBody).message = some "\x7b\"a\": 1\x7d" ∧
    JMap.lookup (into_clef 0 msgJsonBody).additional "a" = none ∧
    "@m" ∈ serializedKeys (into_clef 0 msgJsonBody) :=
  ⟨rfl, rfl, by decide⟩

/-- C3 counterexample: a structured-data element whose id is the reserved
key `@t` is inserted verbatim into the additional bag, so the claimed
invariant fails as stated. -/
theorem reserved_sd_id_inserted_verbatim :
    "@t" ∈ JMap.keys (into_clef 0 msgReservedSd).additional := by decide

/-- C3 (amended): for every message whose structured-data element ids
avoid the reserved keys, the additional bag contains none of `@t`, `@l`,
`@m`, `@mt`, `@x`, `@i`, `@r`; the keys inserted by the header phase are
never reserved. A reserved structured-data id, however, is inserted
verbatim, not avoided or escaped. -/
theorem no_reserved_keys_when_sd_ids_unreserved (now : Nat)
    (msg : SyslogMessage)
    (hsd : ∀ e ∈ msg.structured_data.getD [], e.id ∉ reservedKeys) :
    ∀ k ∈ reservedKeys, k ∉ JMap.keys (into_clef now msg).additional := by
  intro k hk hmem
  rw [mem_keys_additional] at hmem
  rcases hmem with hmem | hmem
  · rw [mem_keys_headerMap] at hmem
    fin_cases hk <;> simp_all
  · rw [List.mem_map] at hmem
    obtain ⟨e, he, hid⟩ := hmem
    exact hsd e he (hid ▸ hk)

/-- C3 witness: at a concrete message with unreserved structured-data ids,
`@t` is not a key of the additional bag. -/
theorem no_reserved_keys_when_sd_ids_unreserved_witness :
    "@t" ∉ JMap.keys (into_clef 0 msgSafeSd).additional :=
  no_reserved_keys_when_sd_ids_unreserved 0 msgSafeSd (by decide) "@t" (by decide)

/-- C4: a structured-data element's parameter pairs are rendered as an
array of single-key objects, one per pair, in encounter order, preserving
duplicate keys (stated for the element whose binding survives under its
id, i.e. the last one with that id). -/
theorem sd_params_rendered_as_singleton_objects (now : Nat)
    (msg : SyslogMessage) (sd : List StructuredDataElement)
    (e : StructuredDataElement)
    (hsd : msg.structured_data = some sd)
    (hlast : lastElemWith sd e.id = some e) :
    JMap.lookup (into_clef now msg).additional e.id =
      some (Json.arr (e.params.map fun kv => Json.obj [(kv.1, Json.str kv.2)])) := by
  rw [lookup_additional_into_clef, hsd]
  simp only [Option.getD_some, hlast, sdElementValue, renderParams_eq]

/-- C4 witness: duplicated `ip` params yield a two-element array of
single-key objects, in order. -/
theorem sd_params_rendered_as_singleton_objects_witness :
    JMap.lookup (into_clef 0 msgDupParams).additional "sdid1234" =
      some (Json.arr [Json.obj [("ip", Json.str "192.0.2.1")],
                      Json.obj [("ip", Json.str "192.0.2.129")]]) :=
  sd_params_rendered_as_singleton_objects 0 msgDupParams _
    ⟨"sdid1234", [("ip", "192.0.2.1"), ("ip", "192.0.2.129")]⟩ rfl rfl

/-- C6: a missing timestamp is not an error: `@t` falls back to the
wall-clock time (`now`, the modelled `Utc::now()` value) and a present
timestamp is used as-is. -/
theorem timestamp_fallback_to_now (now : Nat) (msg : SyslogMessage) :
    (into_clef now msg).timestamp =
      match msg.timestamp with
      | some t => t
      | none => now := by
  cases h : msg.timestamp <;> simp [into_clef, h]

/-- C7: the level field is always `some`, equals the severity name drawn
from the priority, is serialized under `@l` as a string (never null), and
that name contains no uppercase character. -/
theorem level_always_present_severity (now : Nat) (msg : SyslogMessage) :
    (into_clef now msg).level = some msg.priority.severityName ∧
    ("@l", Json.str msg.priority.severityName) ∈
      serializeClef (into_clef now msg) ∧
    (msg.priority.severityName.data.all fun c => !c.isUpper) = true := by
  refine ⟨rfl, ?_, severityName_no_upper msg.priority⟩
  simp [serializeClef,
    show (into_clef now msg).level = some msg.priority.severityName from rfl]

/-- C9: `into_clef` is total (it is a plain function of its input and the
clock) and every output is well-formed: a level is present, `@mt`/`@x`
are unused, `facility` is always in the additional bag, and the bag has
no duplicate keys. -/
theorem into_clef_total_wellformed (now : Nat) (msg : SyslogMessage) :
    wellFormedClef (into_clef now msg) := by
  refine ⟨rfl, rfl, rfl, ?_, keys_nodup_into_clef now msg⟩
  rw [lookup_additional_into_clef]
  cases h : lastElemWith (msg.structured_data.getD []) "facility" with
  | some e => rfl
  | none => rw [lookup_headerMap_facility]; rfl

/-- C10: when several structured-data elements share an id, only the last
such element's rendered parameter list is bound under that id (the per-id
insert overwrites), and the bag holds at most one binding for the id. -/
theorem duplicate_sd_ids_last_wins (now : Nat) (msg : SyslogMessage)
    (sd : List StructuredDataElement) (id : String)
    (e : StructuredDataElement)
    (hsd : msg.structured_data = some sd)
    (hlast : lastElemWith sd id = some e) :
    JMap.lookup (into_clef now msg).additional id =
      some (Json.arr (renderParams e.params)) ∧
    (JMap.keys (into_clef now msg).additional).count id ≤ 1 := by
  constructor
  · rw [lookup_additional_into_clef, hsd]
    simp only [Option.getD_some, hlast, sdElementValue]
  · exact List.nodup_iff_count_le_one.mp (keys_nodup_into_clef now msg) id

/-- C10 witness: with two elements both named `dup`, only the second
element's params are bound under `dup`. -/
theorem duplicate_sd_ids_last_wins_witness :
    JMap.lookup (into_clef 0 msgDupIds).additional "dup" =
      some (Json.arr [Json.obj [("b", Json.str "2")]]) ∧
    (JMap.keys (into_clef 0 msgDupIds).additional).count "dup" ≤ 1 :=
  duplicate_sd_ids_last_wins 0 msgDupIds _ "dup" ⟨"dup", [("b", "2")]⟩ rfl rfl

/-- C5: for a message with no structured data and no body, the serialized
document's keys are exactly `@t`, `@l`, `facility`, and the present
optional header fields — nothing else (in particular no `@m`, `@mt`,
`@x`). -/
theorem sparse_message_exact_keys (now : Nat) (msg : SyslogMessage)
    (hsd : msg.structured_data = none) (hmsg : msg.message = none)
    (k : String) :
    k ∈ serializedKeys (into_clef now msg) ↔
      (k = "@t" ∨ k = "@l" ∨ k = "facility" ∨
       (k = "hostname" ∧ msg.hostname.isSome) ∨
       (k = "app_name" ∧ msg.app_name.isSome) ∨
       (k = "proc_id" ∧ msg.proc_id.isSome) ∨
       (k = "message_id" ∧ msg.message_id.isSome)) := by
  have h1 := mem_keys_additional now msg k
  rw [hsd] at h1
  simp only [Option.getD_none, List.map_nil, List.not_mem_nil, or_false] at h1
  rw [mem_keys_headerMap] at h1
  simp only [serializedKeys, serializeClef,
    show (into_clef now msg).message = msg.message from rfl, hmsg,
    show (into_clef now msg).message_template = none from rfl,
    show (into_clef now msg).exception = none from rfl,
    List.map_append, List.mem_append, List.map_cons, List.map_nil,
    List.mem_cons, List.not_mem_nil, or_false, false_or, List.nil_append,
    List.append_nil]
  rw [show List.map Prod.fst (into_clef now msg).additional =
        JMap.keys (into_clef now msg).additional from rfl, h1]
  tauto

/-- C5 witness: the sparse sample message carries the `facility` key and
no `@m` key. -/
theorem sparse_message_exact_keys_witness :
    ("facility" ∈ serializedKeys (into_clef 0 msgSparse)) ∧
    ¬ ("@m" ∈ serializedKeys (into_clef 0 msgSparse)) :=
  ⟨(sparse_message_exact_keys 0 msgSparse rfl rfl "facility").mpr
      (Or.inr (Or.inr (Or.inl rfl))),
   fun h => by
     have h2 := (sparse_message_exact_keys 0 msgSparse rfl rfl "@m").mp h
     simp [msgSparse] at h2⟩

/-- C8: an optional header field that is `None` contributes nothing to
the output document: its key does not appear at all (so in particular not
with a null value), provided no other source (a structured-data element
id) independently supplies the same key. -/
theorem absent_header_field_fully_omitted (now : Nat) (msg : SyslogMessage)
    (name : String)
    (hname : name ∈ ["hostname", "app_name", "proc_id", "message_id"])
    (habsent : headerField msg name = none)
    (hsd : ∀ e ∈ msg.structured_data.getD [], e.id ≠ name) :
    name ∉ serializedKeys (into_clef now msg) := by
  intro hmem
  have h1 := mem_keys_additional now msg name
  rw [mem_keys_headerMap] at h1
  cases hm : msg.message with
  | none =>
    simp only [serializedKeys, serializeClef,
      show (into_clef now msg).message = msg.message from rfl, hm,
      show (into_clef now msg).message_template = none from rfl,
      show (into_clef now msg).exception = none from rfl,
      List.map_append, List.mem_append, List.map_cons, List.map_nil,
      List.mem_cons, List.not_mem_nil, or_false, false_or, List.nil_append,
      List.append_nil] at hmem
    rw [show List.map Prod.fst (into_clef now msg).additional =
          JMap.keys (into_clef now msg).additional from rfl, h1] at hmem
    fin_cases hname <;> simp [headerField] at habsent <;> simp_all <;>
      (obtain ⟨e, he, hid⟩ := hmem; exact hsd e he hid)
  | some body =>
    simp only [serializedKeys, serializeClef,
      show (into_clef now msg).message = msg.message from rfl, hm,
      show (into_clef now msg).message_template = none from rfl,
      show (into_clef now msg).exception = none from rfl,
      List.map_append, List.mem_append, List.map_cons, List.map_nil,
      List.mem_cons, List.not_mem_nil, or_false, false_or, List.nil_append,
      List.append_nil] at hmem
    rw [show List.map Prod.fst (into_clef now msg).additional =
          JMap.keys (into_clef now msg).additional from rfl, h1] at hmem
    fin_cases hname <;> simp [headerField] at habsent <;> simp_all <;>
      (obtain ⟨e, he, hid⟩ := hmem; exact hsd e he hid)

/-- C8 witness: the sample message without a hostname header emits no
`hostname` key. -/
theorem absent_header_field_fully_omitted_witness :
    "hostname" ∉ serializedKeys (into_clef 0 msgNoHost) :=
  absent_header_field_fully_omitted 0 msgNoHost "hostname" (by decide) rfl
    (by decide)
